import Mathlib

/-!
Verification of the `net-means` centroid unit (Go package `kmeans`,
file modelled here as `part_000`) and of `mathutils/distance.go`.

Embedding conventions.
* `float64` values carried by payload/centroid vectors are modelled as `ℚ`
  (the centroid code performs no float arithmetic of its own; all claims about
  it are structural).  The distance file is modelled over `ℝ` because it calls
  `math.Sqrt`.
* A Go slice of payloads is a `List Payload`; `rmPayload(i)`, which is
  `append(s[:i], s[i+1:]...)`, is order-preserving removal at index `i`,
  i.e. `List.eraseIdx`.
* The injected search strategies receive a lazy generator in Go.  Per the
  documented contract a strategy fully consumes the generator inside the call,
  so its observable input is the full list of yielded vectors; a strategy is
  therefore a pure function `List ℚ → List (List ℚ) → ℕ → List ℕ`
  (target, yielded candidate vectors, k).
* `payloadVecGenerator` evicts every expired payload it passes while
  advancing.  Under full consumption its net effect on the store is
  `sweepExpired` (drop expired entries, keep order) and it yields the vectors
  of the surviving payloads in order.
* Payload expiry (`Expired()`) is external and time-varying in Go; a payload
  here carries a stable `expired` flag, matching the claims' assumption that
  expiry does not flip during a single call.
-/

namespace NetMeans

/-- A `common.PayloadContainer`: carries its vector and its expiry flag. -/
structure Payload where
  vec : List ℚ
  expired : Bool
deriving DecidableEq

instance : Inhabited Payload := ⟨⟨[], false⟩⟩

/-- A search strategy (`knnSearchFunc` in the source): target vector, the
vectors yielded by the candidate generator, and `k`, to a list of candidate
indices (positions in the yielded sequence). -/
abbrev SearchFunc : Type := List ℚ → List (List ℚ) → ℕ → List ℕ

/-- The `Centroid` struct of `part_000`. -/
structure Centroid where
  vec : List ℚ
  DataPoints : List Payload
  knnSearchFunc : SearchFunc
  kfnSearchFunc : SearchFunc

/-- A `common.PayloadReceiver`: a representative vector, an (opaque)
accept/reject policy that is side-effect free on rejection, and the payloads
it has accepted so far.  Modelled from the spec contract for
`PayloadReceiver` (the interface itself is outside this file's source). -/
structure Receiver where
  vec : List ℚ
  accepts : Payload → Bool
  held : List Payload

instance : Inhabited Receiver := ⟨⟨[], fun _ => false, []⟩⟩

/-- `Receiver.AddPayload`: accept-or-reject; no mutation on rejection. -/
def Receiver.AddPayload (r : Receiver) (p : Payload) : Receiver × Bool :=
  if r.accepts p then ({ r with held := r.held ++ [p] }, true) else (r, false)

/-- The element-wise copy loop of `NewCentroid`
(`make([]float64, len(initVec))` followed by `c.vec[i] = v`). -/
def copyVec : List ℚ → List ℚ
  | [] => []
  | v :: rest => v :: copyVec rest

/-- `NewCentroidArgs`; the Go function-pointer fields may be nil, hence
`Option`.  `InitCap` only pre-sizes the backing store and has no effect on
the values computed here. -/
structure NewCentroidArgs where
  InitVec : List ℚ
  InitCap : ℕ
  KNNSearchFunc : Option SearchFunc
  KFNSearchFunc : Option SearchFunc

/-- `NewCentroid`: fails when either strategy is nil, otherwise copies
`InitVec` into owned storage and starts with an empty store. -/
def NewCentroid (args : NewCentroidArgs) : Option Centroid :=
  match args.KNNSearchFunc, args.KFNSearchFunc with
  | some knn, some kfn =>
      some { vec := copyVec args.InitVec
             DataPoints := []
             knnSearchFunc := knn
             kfnSearchFunc := kfn }
  | _, _ => none

/-- `Centroid.AddPayload`: reject on vector-length mismatch or expiry,
otherwise append. -/
def Centroid.AddPayload (c : Centroid) (p : Payload) : Centroid × Bool :=
  if p.vec.length != c.vec.length || p.expired then (c, false)
  else ({ c with DataPoints := c.DataPoints ++ [p] }, true)

/-- `Centroid.rmPayload`: `append(DataPoints[:i], DataPoints[i+1:]...)`,
order-preserving removal at index `i`. -/
def Centroid.rmPayload (c : Centroid) (i : ℕ) : Centroid :=
  { c with DataPoints := c.DataPoints.eraseIdx i }

/-- Net effect of fully consuming `payloadVecGenerator` on the store: each
expired payload the cursor reaches is removed in place, every other payload
is kept (and its vector yielded) in order. -/
def sweepExpired : List Payload → List Payload
  | [] => []
  | p :: rest => if p.expired then sweepExpired rest else p :: sweepExpired rest

/-- The loop body of `DrainUnordered`: pop index 0 while the store is
non-empty and fewer than `n` non-expired payloads have been collected;
expired payloads are popped but not collected.  Returns
(remaining store, collected payloads). -/
def drainUnorderedAux : List Payload → ℕ → List Payload × List Payload
  | dps, 0 => (dps, [])
  | [], _ + 1 => ([], [])
  | p :: rest, n + 1 =>
      if p.expired then drainUnorderedAux rest (n + 1)
      else
        let (rem, res) := drainUnorderedAux rest n
        (rem, p :: res)

/-- `Centroid.DrainUnordered`. -/
def Centroid.DrainUnordered (c : Centroid) (n : ℕ) : Centroid × List Payload :=
  let (rem, res) := drainUnorderedAux c.DataPoints n
  ({ c with DataPoints := rem }, res)

/-- `Centroid.DrainOrdered`: run the farthest-neighbour strategy on a fresh
generator (which evicts expired payloads as it is consumed), read the
payloads at the returned indices, then remove those same indices in a second
pass.  The second pass erases positions one at a time, exactly as the
`rmPayload` loop does in the source. -/
def Centroid.DrainOrdered (c : Centroid) (n : ℕ) : Centroid × List Payload :=
  let cg : Centroid := { c with DataPoints := sweepExpired c.DataPoints }
  let indexes := c.kfnSearchFunc c.vec (cg.DataPoints.map Payload.vec) n
  let res := indexes.map (fun i => cg.DataPoints.getD i default)
  (indexes.foldl Centroid.rmPayload cg, res)

/-- The `Expire` loop: a cursor `i` over the store, erasing in place at `i`
when the payload there is expired and advancing otherwise. -/
def expireLoop (dps : List Payload) (i : ℕ) : List Payload :=
  if h : i < dps.length then
    if (dps.get ⟨i, h⟩).expired then expireLoop (dps.eraseIdx i) i
    else expireLoop dps (i + 1)
  else dps
termination_by dps.length - i
decreasing_by
  · rw [List.length_eraseIdx_of_lt h]; omega
  · omega

/-- `Centroid.Expire`. -/
def Centroid.Expire (c : Centroid) : Centroid :=
  { c with DataPoints := expireLoop c.DataPoints 0 }

/-- `Centroid.LenDP`: raw length of the backing store. -/
def Centroid.LenDP (c : Centroid) : ℕ := c.DataPoints.length

/-- `Centroid.MemTrim`: rebuild the store, keeping non-expired payloads in
order. -/
def Centroid.MemTrim (c : Centroid) : Centroid :=
  { c with DataPoints := c.DataPoints.filter (fun p => !p.expired) }

/-- The capacity handed to `make` inside `MemTrim`: `len(c.DataPoints)`
evaluated before the rebuild loop runs. -/
def memTrimNewCap (c : Centroid) : ℕ := c.DataPoints.length

/-- Modelled from the spec: `mathutils.VecMean` is called by `MoveVector`
but its source is not part of this unit.  Per the spec's VectorOps contract,
`Mean` fails exactly on an empty sequence and otherwise returns the
coordinate-wise arithmetic mean of the yielded vectors. -/
def VecMean (vecs : List (List ℚ)) : Option (List ℚ) :=
  match vecs with
  | [] => none
  | v :: rest =>
      let s := rest.foldl (fun acc w => acc.zipWith (· + ·) w) v
      some (s.map (fun x => x / (vecs.length : ℚ)))

/-- `Centroid.MoveVector`: feed the (expiry-evicting) generator to the mean
helper; replace `vec` only on success. -/
def Centroid.MoveVector (c : Centroid) : Centroid × Bool :=
  let live := sweepExpired c.DataPoints
  match VecMean (live.map Payload.vec) with
  | some v => ({ c with vec := v, DataPoints := live }, true)
  | none => ({ c with DataPoints := live }, false)

/-- `Centroid.KNNLookup`: nearest-neighbour strategy over a fresh generator;
read the payloads at the returned indices; when `drain` is set, erase those
same indices in a second pass (same pattern as `DrainOrdered`). -/
def Centroid.KNNLookup (c : Centroid) (vec : List ℚ) (k : ℕ) (drain : Bool) :
    Centroid × List Payload :=
  let cg : Centroid := { c with DataPoints := sweepExpired c.DataPoints }
  let indexes := c.knnSearchFunc vec (cg.DataPoints.map Payload.vec) k
  let res := indexes.map (fun i => cg.DataPoints.getD i default)
  (if drain then indexes.foldl Centroid.rmPayload cg else cg, res)

/-- `Centroid.DistributePayload`: no-op on an empty receiver list; otherwise
drain the `n` "worst" payloads via `DrainOrdered`, then for each drained
payload pick the best receiver with the nearest-neighbour strategy (k = 1)
over the receivers' representative vectors and offer it the payload; on a
failed search or a rejected offer the payload is re-added to self. -/
def Centroid.DistributePayload (c : Centroid) (n : ℕ)
    (receivers : List Receiver) : Centroid × List Receiver :=
  if receivers.isEmpty then (c, receivers)
  else
    let step := c.DrainOrdered n
    step.2.foldl
      (fun st p =>
        let indexes := st.1.knnSearchFunc p.vec (st.2.map Receiver.vec) 1
        match indexes with
        | [] => ((st.1.AddPayload p).1, st.2)
        | i :: _ =>
            let add := (st.2.getD i default).AddPayload p
            if add.2 then (st.1, st.2.set i add.1)
            else ((st.1.AddPayload p).1, st.2))
      (step.1, receivers)

/-! ### Helper lemmas -/

theorem sweepExpired_eq_filter (l : List Payload) :
    sweepExpired l = l.filter (fun p => !p.expired) := by
  induction l with
  | nil => rfl
  | cons p rest ih =>
      by_cases hp : p.expired <;> simp [sweepExpired, hp, ih]

theorem sweepExpired_all_live (l : List Payload) :
    (sweepExpired l).all (fun p => !p.expired) = true := by
  induction l with
  | nil => rfl
  | cons p rest ih =>
      by_cases hp : p.expired <;> simp [sweepExpired, hp, ih]

theorem copyVec_eq (v : List ℚ) : copyVec v = v := by
  induction v with
  | nil => rfl
  | cons x xs ih => simp [copyVec, ih]

theorem filter_length_split (l : List Payload) :
    (l.filter (fun p => !p.expired)).length
      + (l.filter (fun p => p.expired)).length = l.length := by
  induction l with
  | nil => rfl
  | cons p rest ih =>
      by_cases hp : p.expired <;> simp [hp, List.filter_cons] <;> omega

/-- The `Expire` cursor loop keeps the prefix before the cursor and sweeps
the suffix. -/
theorem expireLoop_spec (dps : List Payload) (i : ℕ) :
    expireLoop dps i = dps.take i ++ sweepExpired (dps.drop i) := by
  induction dps, i using expireLoop.induct with
  | case1 dps i h hexp ih =>
      rw [expireLoop, dif_pos h, if_pos hexp, ih]
      have htake : (dps.take i).length = i := by
        simp [List.length_take]; omega
      rw [List.eraseIdx_eq_take_drop_succ]
      rw [List.take_append_of_le_length (by omega)]
      rw [List.drop_append_eq_append_drop]
      rw [List.take_take, min_self, htake]
      rw [List.drop_eq_nil_of_le (by omega), Nat.sub_self, List.drop_zero]
      rw [List.drop_eq_getElem_cons h]
      simp [sweepExpired, List.get_eq_getElem] at hexp ⊢
      simp [hexp]
  | case2 dps i h hexp ih =>
      rw [expireLoop, dif_pos h, if_neg hexp, ih]
      rw [List.drop_eq_getElem_cons h, List.take_succ]
      simp [sweepExpired, List.get_eq_getElem] at hexp ⊢
      simp [hexp, List.getElem?_eq_getElem h]
  | case3 dps i h =>
      rw [expireLoop, dif_neg h]
      rw [List.take_of_length_le (by omega), List.drop_eq_nil_of_le (by omega)]
      simp [sweepExpired]

/-! ### Concrete inputs used by the concrete-input theorems -/

/-- Concrete non-expired payloads at positions 3, 2 and 1 on a line. -/
def pA : Payload := ⟨[3], false⟩

def pB : Payload := ⟨[2], false⟩

def pC : Payload := ⟨[1], false⟩

/-- A concrete payload that is already expired. -/
def pE : Payload := ⟨[9], true⟩

/-- A nearest-neighbour strategy returning the single index 0; on the inputs
below (one candidate) it is the genuine nearest neighbour. -/
def knnFirst : SearchFunc := fun _ _ _ => [0]

/-- A strategy returning indices `[0, 1]` — ascending, in bounds and of
length ≤ k on every input it is used with below.  On those inputs it agrees
with a genuine farthest-neighbour ranking (the stores are sorted by
descending distance from the target). -/
def kfnTop2 : SearchFunc := fun _ _ _ => [0, 1]

/-- Same index list used as a nearest-neighbour strategy; on the input below
the store is sorted by ascending distance, so `[0, 1]` is the genuine
2-nearest answer. -/
def knnTop2 : SearchFunc := fun _ _ _ => [0, 1]

/-! ### Claims -/

/-- C5: `AddPayload p` returns true iff `len(p.Vec()) == len(centroid.vec)`
and `p` is not expired; it appends `p` exactly in that case and never touches
the centroid vector. -/
theorem addPayload_guard (c : Centroid) (p : Payload) :
    ((c.AddPayload p).2 = (p.vec.length == c.vec.length && !p.expired)) ∧
    ((c.AddPayload p).1).DataPoints =
      (if p.vec.length == c.vec.length && !p.expired then c.DataPoints ++ [p]
       else c.DataPoints) ∧
    ((c.AddPayload p).1).vec = c.vec := by
  unfold Centroid.AddPayload
  by_cases h1 : p.vec.length = c.vec.length <;> by_cases h2 : p.expired <;>
    simp [h1, h2]

/-- C7: after `Expire()` no remaining payload is expired; the surviving store
is exactly the non-expired payloads of the old store, compacted in order. -/
theorem expire_no_expired_left (c : Centroid) :
    ((c.Expire).DataPoints.all (fun p => !p.expired) = true) ∧
    (c.Expire).DataPoints = c.DataPoints.filter (fun p => !p.expired) := by
  have h : (c.Expire).DataPoints = sweepExpired c.DataPoints := by
    simp [Centroid.Expire, expireLoop_spec]
  exact ⟨h ▸ sweepExpired_all_live _, h.trans (sweepExpired_eq_filter _)⟩

/-- C9: `NewCentroid` fails iff either strategy is nil; on success the
centroid's vector is the element-wise copy of `InitVec` and the store starts
empty. -/
theorem newCentroid_spec (args : NewCentroidArgs) :
    ((NewCentroid args).isSome
        = (args.KNNSearchFunc.isSome && args.KFNSearchFunc.isSome)) ∧
    ∀ c, NewCentroid args = some c →
      c.vec = args.InitVec ∧ c.DataPoints = [] := by
  obtain ⟨iv, cap, knn, kfn⟩ := args
  cases knn <;> cases kfn <;>
    simp_all [NewCentroid, copyVec_eq]

def args9 : NewCentroidArgs :=
  { InitVec := [1, 2], InitCap := 4,
    KNNSearchFunc := some knnFirst, KFNSearchFunc := some kfnTop2 }

def cent9 : Centroid :=
  { vec := copyVec [1, 2], DataPoints := [],
    knnSearchFunc := knnFirst, kfnSearchFunc := kfnTop2 }

/-- Witness for C9 at a concrete argument record. -/
theorem newCentroid_spec_witness :
    cent9.vec = [(1 : ℚ), 2] ∧ cent9.DataPoints = [] :=
  (newCentroid_spec args9).2 cent9 rfl

/-- C6: `MoveVector` succeeds exactly when a live payload exists; on failure
the vector is untouched, on success it becomes the mean (computed by the
spec-modelled `VecMean`) of the live payload vectors. -/
theorem moveVector_spec (c : Centroid) :
    ((c.MoveVector).2 = !((sweepExpired c.DataPoints).isEmpty)) ∧
    ((c.MoveVector).1).vec
      = (VecMean ((sweepExpired c.DataPoints).map Payload.vec)).getD c.vec := by
  unfold Centroid.MoveVector
  cases h : sweepExpired c.DataPoints with
  | nil => simp [VecMean]
  | cons p rest => simp [VecMean]

/-- Everything the `DrainUnordered` pop loop guarantees, by induction on the
store: the collected payloads are live and at most `n`; fewer than `n` only
when the whole store was consumed; and the store splits into a fully
processed prefix (whose live payloads are exactly the result) and the
untouched remainder. -/
theorem drainUnorderedAux_spec (dps : List Payload) :
    ∀ n : ℕ,
      ((drainUnorderedAux dps n).2.all (fun p => !p.expired) = true) ∧
      (drainUnorderedAux dps n).2.length ≤ n ∧
      ((drainUnorderedAux dps n).2.length < n →
        (drainUnorderedAux dps n).2 = sweepExpired dps) ∧
      ∃ pre, dps = pre ++ (drainUnorderedAux dps n).1 ∧
        (drainUnorderedAux dps n).2 = sweepExpired pre := by
  induction dps with
  | nil =>
      intro n
      cases n with
      | zero => exact ⟨rfl, by simp [drainUnorderedAux], fun _ => rfl, [], rfl, rfl⟩
      | succ m => exact ⟨rfl, by simp [drainUnorderedAux], fun _ => rfl, [], rfl, rfl⟩
  | cons p rest ih =>
      intro n
      cases n with
      | zero =>
          refine ⟨rfl, by simp [drainUnorderedAux], fun h => absurd h (by simp), [], rfl, rfl⟩
      | succ m =>
          by_cases hp : p.expired
          · have heq : drainUnorderedAux (p :: rest) (m + 1)
                = drainUnorderedAux rest (m + 1) := by
              simp [drainUnorderedAux, hp]
            obtain ⟨h1, h2, h3, pre, hpre, hres⟩ := ih (m + 1)
            refine ⟨heq ▸ h1, heq ▸ h2, ?_, p :: pre, ?_, ?_⟩
            · intro hlt
              rw [heq] at hlt ⊢
              rw [h3 hlt]
              simp [sweepExpired, hp]
            · rw [heq, List.cons_append, ← hpre]
            · rw [heq, hres]; simp [sweepExpired, hp]
          · have heq : drainUnorderedAux (p :: rest) (m + 1)
                = ((drainUnorderedAux rest m).1, p :: (drainUnorderedAux rest m).2) := by
              simp [drainUnorderedAux, hp]
            obtain ⟨h1, h2, h3, pre, hpre, hres⟩ := ih m
            refine ⟨?_, ?_, ?_, p :: pre, ?_, ?_⟩
            · rw [heq]; simp [hp, h1]
            · rw [heq]; simpa using h2
            · intro hlt
              rw [heq] at hlt ⊢
              simp only [List.length_cons] at hlt
              have hlt2 : (drainUnorderedAux rest m).2.length < m := by omega
              rw [h3 hlt2]
              simp [sweepExpired, hp]
            · rw [heq, List.cons_append, ← hpre]
            · rw [heq, hres]; simp [sweepExpired, hp]

/-- C4 (amended): `DrainUnordered n` returns only non-expired payloads, at
most `n` of them (fewer only when the whole store was consumed, i.e. fewer
than `n` non-expired payloads existed), and `LenDP` shrinks by the result
length plus the number of expired payloads silently discarded while
popping. -/
theorem drainUnordered_spec (c : Centroid) (n : ℕ) :
    ((c.DrainUnordered n).2.all (fun p => !p.expired) = true) ∧
    (c.DrainUnordered n).2.length ≤ n ∧
    ((c.DrainUnordered n).2.length < n →
      (c.DrainUnordered n).2 = sweepExpired c.DataPoints) ∧
    ∃ pre, c.DataPoints = pre ++ ((c.DrainUnordered n).1).DataPoints ∧
      (c.DrainUnordered n).2 = sweepExpired pre ∧
      ((c.DrainUnordered n).1).LenDP + (c.DrainUnordered n).2.length
        + (pre.filter (fun p => p.expired)).length = c.LenDP := by
  obtain ⟨h1, h2, h3, pre, hpre, hres⟩ := drainUnorderedAux_spec c.DataPoints n
  have hfst : ((c.DrainUnordered n).1).DataPoints = (drainUnorderedAux c.DataPoints n).1 := rfl
  have hsnd : (c.DrainUnordered n).2 = (drainUnorderedAux c.DataPoints n).2 := rfl
  refine ⟨hsnd ▸ h1, hsnd ▸ h2, ?_, pre, ?_, ?_, ?_⟩
  · intro hlt; rw [hsnd] at hlt ⊢; exact h3 hlt
  · rw [hfst, ← hpre]
  · rw [hsnd, hres]
  · rw [Centroid.LenDP, Centroid.LenDP, hfst, hsnd]
    have hlen : c.DataPoints.length
        = pre.length + (drainUnorderedAux c.DataPoints n).1.length := by
      have h0 := congrArg List.length hpre
      rwa [List.length_append] at h0
    have hreslen : (drainUnorderedAux c.DataPoints n).2.length
        = (pre.filter (fun p => !p.expired)).length := by
      rw [hres, sweepExpired_eq_filter]
    have := filter_length_split pre
    omega

/-- A store holding one expired and one live payload: drains and trims on it
exercise the silent-discard paths. -/
def cU : Centroid := ⟨[0], [pE, pC], knnFirst, kfnTop2⟩

/-- Witness for C4 at a concrete centroid (one expired, one live payload)
and n = 2. -/
theorem drainUnordered_spec_witness :
    ((cU.DrainUnordered 2).2.all (fun p => !p.expired) = true) ∧
    (cU.DrainUnordered 2).2.length ≤ 2 ∧
    ((cU.DrainUnordered 2).2.length < 2 →
      (cU.DrainUnordered 2).2 = sweepExpired cU.DataPoints) ∧
    ∃ pre, cU.DataPoints = pre ++ ((cU.DrainUnordered 2).1).DataPoints ∧
      (cU.DrainUnordered 2).2 = sweepExpired pre ∧
      ((cU.DrainUnordered 2).1).LenDP + (cU.DrainUnordered 2).2.length
        + (pre.filter (fun p => p.expired)).length = cU.LenDP :=
  drainUnordered_spec cU 2

/-- A store holding a single expired payload. -/
def cExp : Centroid := ⟨[0], [pE], knnFirst, kfnTop2⟩

/-- Counterexample to C4 as stated: with one already-expired payload,
`DrainUnordered 1` returns nothing, yet `LenDP` drops from 1 to 0, so the
collection does not shrink by exactly the result length. -/
theorem drainUnordered_lendp_mismatch :
    ((cExp.DrainUnordered 1).1).LenDP
      ≠ cExp.LenDP - ((cExp.DrainUnordered 1).2).length := by decide

/-- C8 (amended): `MemTrim` rebuilds the store at capacity equal to the
pre-trim store length (including still-unswept expired entries), keeping
exactly the non-expired payloads in order; the live count fits under that
capacity and the centroid vector is untouched. -/
theorem memTrim_spec (c : Centroid) :
    memTrimNewCap c = c.DataPoints.length ∧
    (c.MemTrim).DataPoints = c.DataPoints.filter (fun p => !p.expired) ∧
    ((c.MemTrim).DataPoints.all (fun p => !p.expired) = true) ∧
    (c.MemTrim).LenDP ≤ memTrimNewCap c ∧
    (c.MemTrim).vec = c.vec := by
  refine ⟨rfl, rfl, ?_, ?_, rfl⟩
  · rw [show (c.MemTrim).DataPoints = c.DataPoints.filter (fun p => !p.expired) from rfl,
      ← sweepExpired_eq_filter]
    exact sweepExpired_all_live _
  · exact List.length_filter_le _ _

/-- A store holding one expired and one live payload, for the `MemTrim`
capacity counterexample. -/
def cTrim : Centroid := ⟨[0], [pE, pC], knnFirst, kfnTop2⟩

/-- Counterexample to C8 as stated: with one expired entry still in the
store, the capacity handed to the rebuild (`len(DataPoints)` = 2) differs
from the live payload count after the trim (1). -/
theorem memTrim_cap_ne_live :
    memTrimNewCap cTrim ≠ ((cTrim.MemTrim).DataPoints).length := by decide

/-- Store sorted by descending distance from the centroid vector `[0]`:
payloads at `[3]`, `[2]`, `[1]`.  The farthest-2 answer is `[0, 1]`. -/
def cDrain : Centroid := ⟨[0], [pA, pB, pC], knnFirst, kfnTop2⟩

/-- C2 (code bug): `DrainOrdered 2` on three payloads returns the two
strategy-ranked-furthest payloads `pA, pB`, but because the second removal
pass does not account for the index shift of the first removal, the store
is left holding `pB` (which was returned) while `pC` (which was not) has
been removed. -/
theorem drainOrdered_removes_wrong_payloads :
    (cDrain.DrainOrdered 2).2 = [pA, pB] ∧
    ((cDrain.DrainOrdered 2).1).DataPoints = [pB] ∧
    pC ∈ cDrain.DataPoints ∧ pC ∉ (cDrain.DrainOrdered 2).2 ∧
    pB ∈ (cDrain.DrainOrdered 2).2 ∧
    pB ∈ ((cDrain.DrainOrdered 2).1).DataPoints := by decide

/-- Store sorted by ascending distance from the query `[1]` used below:
payloads at `[1]`, `[2]`, `[3]`, then an expired one.  The nearest-2 answer
is `[0, 1]`. -/
def cLookup : Centroid := ⟨[0], [pC, pB, pA, pE], knnTop2, kfnTop2⟩

/-- C3 (code bug): `KNNLookup(v, 2, drain=true)` returns `pC, pB` but the
shifted second removal pass leaves `pB` in the store (removing `pA`
instead), and `LenDP` drops from 4 to 1 — not by the result length 2 (the
generator also evicted the expired payload). -/
theorem knnLookup_drain_mismatch :
    (cLookup.KNNLookup [1] 2 true).2 = [pC, pB] ∧
    ((cLookup.KNNLookup [1] 2 true).1).DataPoints = [pB] ∧
    cLookup.LenDP = 4 ∧
    ((cLookup.KNNLookup [1] 2 true).1).LenDP
      ≠ cLookup.LenDP - (cLookup.KNNLookup [1] 2 true).2.length ∧
    pB ∈ (cLookup.KNNLookup [1] 2 true).2 ∧
    pB ∈ ((cLookup.KNNLookup [1] 2 true).1).DataPoints := by decide

/-- Same store as `cDrain`, used as the distribution source. -/
def cDist : Centroid := ⟨[0], [pA, pB, pC], knnFirst, kfnTop2⟩

/-- A receiver that accepts every payload offered to it. -/
def rcv : Receiver := ⟨[0], fun _ => true, []⟩

/-- C1 (code bug): distributing 2 payloads to one all-accepting receiver,
the payload `pC` removed from self by the drain step ends up in neither self
nor the receiver (it is lost), while `pB` ends up both in self and in the
receiver (it is duplicated) — the drain's buggy second removal pass breaks
the exactly-one-home guarantee. -/
theorem distributePayload_loses_payload :
    ((cDist.DistributePayload 2 [rcv]).1).DataPoints = [pB] ∧
    (((cDist.DistributePayload 2 [rcv]).2).getD 0 default).held = [pA, pB] ∧
    pC ∈ cDist.DataPoints ∧
    pC ∉ ((cDist.DistributePayload 2 [rcv]).1).DataPoints ∧
    pC ∉ (((cDist.DistributePayload 2 [rcv]).2).getD 0 default).held ∧
    pB ∈ ((cDist.DistributePayload 2 [rcv]).1).DataPoints ∧
    pB ∈ (((cDist.DistributePayload 2 [rcv]).2).getD 0 default).held := by decide

end NetMeans

namespace mathutils

/-!
`mathutils/distance.go`, modelled over `ℝ` (the file calls `math.Sqrt`, so
its values are genuinely irrational; exact reals replace IEEE doubles).  A
Go `nil` slice is `none`; a non-nil slice is `some` of its elements.
-/

/-- The accumulation loop of `EuclideanDistance`:
`r += math.Sqrt((v1[i]-v2[i]) * (v1[i]-v2[i]))` over the indices of `v1`
(the caller guarantees equal lengths; the left-to-right accumulation is
reassociated here, which is sound in `ℝ`). -/
noncomputable def euclSum : List ℝ → List ℝ → ℝ
  | a :: as, b :: bs => Real.sqrt ((a - b) * (a - b)) + euclSum as bs
  | _, _ => 0

/-- `EuclideanDistance`: error on a nil vector or mismatched lengths,
otherwise the summed per-coordinate square roots. -/
noncomputable def EuclideanDistance :
    Option (List ℝ) → Option (List ℝ) → Except String ℝ
  | none, _ => .error "nil vec"
  | some _, none => .error "nil vec"
  | some v1, some v2 =>
      if v1.length ≠ v2.length then
        .error "distance measurement attempt failed: vectors are of different lengths"
      else .ok (euclSum v1 v2)

/-- Each summand `√((x-y)·(x-y))` is exactly `|x - y|`. -/
theorem euclSum_eq_abs (a : List ℝ) : ∀ b : List ℝ,
    euclSum a b = (List.zipWith (fun x y => |x - y|) a b).sum := by
  induction a with
  | nil => intro b; cases b <;> simp [euclSum]
  | cons x xs ih =>
      intro b
      cases b with
      | nil => simp [euclSum]
      | cons y ys => simp [euclSum, ih, Real.sqrt_mul_self_eq_abs]

/-- C10: on non-nil vectors of equal length, `EuclideanDistance` succeeds
and returns the sum of absolute coordinate differences (the L1 distance);
on `[3,0]` vs `[0,4]` it yields 7, whereas the square root of the summed
squared differences is 5. -/
theorem euclideanDistance_is_l1 :
    (∀ a b : List ℝ, a.length = b.length →
      EuclideanDistance (some a) (some b)
        = .ok ((List.zipWith (fun x y => |x - y|) a b).sum)) ∧
    EuclideanDistance (some [3, 0]) (some [0, 4]) = .ok 7 ∧
    Real.sqrt (((3 : ℝ) - 0) * (3 - 0) + ((0 : ℝ) - 4) * (0 - 4)) = 5 := by
  refine ⟨?_, ?_, ?_⟩
  · intro a b h
    simp [EuclideanDistance, h, euclSum_eq_abs]
  · have hsum : euclSum [(3 : ℝ), 0] [(0 : ℝ), 4] = 7 := by
      rw [show euclSum [(3 : ℝ), 0] [(0 : ℝ), 4]
          = Real.sqrt ((3 - 0) * (3 - 0))
            + (Real.sqrt ((0 - 4) * (0 - 4)) + 0) from rfl]
      rw [show ((3 : ℝ) - 0) * (3 - 0) = 3 * 3 by norm_num,
        show ((0 : ℝ) - 4) * (0 - 4) = 4 * 4 by norm_num,
        Real.sqrt_mul_self (by norm_num : (0 : ℝ) ≤ 3),
        Real.sqrt_mul_self (by norm_num : (0 : ℝ) ≤ 4)]
      norm_num
    simp [EuclideanDistance, hsum]
  · rw [show ((3 : ℝ) - 0) * (3 - 0) + ((0 : ℝ) - 4) * (0 - 4) = 5 * 5 by norm_num,
      Real.sqrt_mul_self (by norm_num : (0 : ℝ) ≤ 5)]

/-- Witness for C10 at the one-coordinate vectors `[3]` and `[4]`. -/
theorem euclideanDistance_is_l1_witness :
    ([(3 : ℝ)].length = [(4 : ℝ)].length) ∧
    EuclideanDistance (some [(3 : ℝ)]) (some [(4 : ℝ)])
      = .ok ((List.zipWith (fun x y => |x - y|) [(3 : ℝ)] [(4 : ℝ)]).sum) :=
  ⟨rfl, euclideanDistance_is_l1.1 [3] [4] rfl⟩

end mathutils
